import Mathlib

/-!
Verification of the Workspace Authorization & Membership Lifecycle Engine.

The development shallowly embeds the two deployment flavours of the engine:

* the enum-based local-server deployment
  (`crates/server/src/middleware/authorization.rs`): a fixed catalog of roles
  `{Admin, Member, Viewer}` each mapped in code to a static permission set;
* the service deployment (`crates/services/src/services/workspace_team.rs`
  together with the SQLite models in `crates/db/src/models/`): roles are rows
  with a `role_permissions` join table, the top tier is the `Owner` system
  role;
* the remote deployment (`crates/remote/src/db/*.rs`,
  `crates/remote/src/routes/workspace_members.rs`): memberships carry an
  enumerated role plus an explicit permission array, the top tier is `Admin`,
  and invitations drive a `pending/accepted/revoked/expired` state machine.

Database tables become lists of rows inside explicit state structures and the
SQL statements become the corresponding list operations; every operation that
writes returns the result together with the successor state.
-/

namespace VibeKanban

/-! ## Enum-based deployment: `server/src/middleware/authorization.rs` -/

/-- Permission keys for authorization checks (`enum Permission`). -/
inductive Permission
  | taskRead | taskCreate | taskUpdate | taskDelete
  | ownTaskRead | ownTaskUpdate | ownTaskDelete
  | workspaceRead | workspaceCreate | workspaceUpdate | workspaceDelete
  | ownWorkspaceRead | ownWorkspaceUpdate | ownWorkspaceDelete
  | sessionRead | sessionCreate | sessionUpdate | sessionDelete
  | ownSessionRead | ownSessionUpdate | ownSessionDelete
  | projectRead | projectCreate | projectUpdate | projectDelete
  | adminAccess
deriving DecidableEq, Fintype, Repr

/-- Role definitions (`enum Role` in the local-server deployment). -/
inductive Role
  | admin | member | viewer
deriving DecidableEq, Repr

/-- `Role::permissions`: the static permission set of each role, with the
permissions listed in the order the Rust code inserts them. -/
def Role.permissions : Role → List Permission
  | .admin =>
      [.taskRead, .taskCreate, .taskUpdate, .taskDelete,
       .ownTaskRead, .ownTaskUpdate, .ownTaskDelete,
       .workspaceRead, .workspaceCreate, .workspaceUpdate, .workspaceDelete,
       .ownWorkspaceRead, .ownWorkspaceUpdate, .ownWorkspaceDelete,
       .sessionRead, .sessionCreate, .sessionUpdate, .sessionDelete,
       .ownSessionRead, .ownSessionUpdate, .ownSessionDelete,
       .projectRead, .projectCreate, .projectUpdate, .projectDelete,
       .adminAccess]
  | .member =>
      [.taskRead, .taskCreate,
       .ownTaskRead, .ownTaskUpdate, .ownTaskDelete,
       .workspaceRead, .workspaceCreate,
       .ownWorkspaceRead, .ownWorkspaceUpdate, .ownWorkspaceDelete,
       .sessionRead, .sessionCreate,
       .ownSessionRead, .ownSessionUpdate, .ownSessionDelete,
       .projectRead]
  | .viewer =>
      [.taskRead, .ownTaskRead,
       .workspaceRead, .ownWorkspaceRead,
       .sessionRead, .ownSessionRead,
       .projectRead]

/-- `struct AuthContext`: user context for authorization. -/
structure AuthContext where
  userId : Option Nat
  role : Role
  workspaceId : Option Nat
deriving Repr

/-- `impl Default for AuthContext`: defaults to the Admin role for the local
deployment (no auth required by default). -/
def AuthContext.default : AuthContext :=
  { userId := none, role := .admin, workspaceId := none }

/-- `AuthContext::has_permission`. -/
def AuthContext.hasPermission (ctx : AuthContext) (p : Permission) : Bool :=
  ctx.role.permissions.contains p

/-- `require_permission_inner`: reads the `AuthContext` request extension,
falling back to `AuthContext::default()` when absent, and rejects with 403
when the permission is missing. -/
def require_permission_inner (ctxOpt : Option AuthContext) (p : Permission) :
    Except Nat Unit :=
  let ctx := ctxOpt.getD AuthContext.default
  if ctx.hasPermission p then Except.ok () else Except.error 403

/-- Claim C6: in the enum-based deployment the effective permission set is
monotone in role rank: `Role::permissions()` for Admin is a superset of
`Role::permissions()` for Member, which is a superset of Viewer, for every
`Permission` variant of the catalog. -/
theorem c6_role_permission_monotonicity :
    ∀ p : Permission,
      (p ∈ Role.viewer.permissions → p ∈ Role.member.permissions) ∧
      (p ∈ Role.member.permissions → p ∈ Role.admin.permissions) := by
  decide

theorem c6_role_permission_monotonicity_witness :
    Permission.taskRead ∈ Role.member.permissions ∧
    Permission.ownTaskUpdate ∈ Role.admin.permissions :=
  ⟨(c6_role_permission_monotonicity Permission.taskRead).1 (by decide),
   (c6_role_permission_monotonicity Permission.ownTaskUpdate).2 (by decide)⟩

/-- Claim C10: for every request whose extensions carry no `AuthContext`, and
for every `Permission` variant, the `require_permission` middleware grants
access: `AuthContext::default()` assigns the Admin role, whose permission set
contains every `Permission`, and `require_permission_inner` falls back to this
default when the extension is absent, so the permission check never fails for
such a request. -/
theorem c10_missing_auth_context_always_grants :
    AuthContext.default.role = Role.admin ∧
      ∀ p : Permission, require_permission_inner none p = Except.ok () := by
  refine ⟨rfl, ?_⟩
  intro p
  cases p <;> rfl

/-! ## Service deployment: `services/src/services/workspace_team.rs` and the
SQLite models in `db/src/models/`.  UUIDs are abstracted to `Nat`. -/

namespace Service

/-- `system_roles::OWNER` (`role.rs`): the well-known id of the Owner system
role, `Uuid ...0001` abstracted to `1`. -/
def OWNER : Nat := 1

/-- A row of the `roles` table (`struct Role` in `role.rs`). -/
structure SRole where
  id : Nat
  name : String
  description : Option String
  isSystem : Bool
deriving DecidableEq, Repr

/-- A row of the `workspace_members` table (`struct WorkspaceMember`). -/
structure SMember where
  id : Nat
  workspaceTeamId : Nat
  userId : String
  roleId : Nat
  invitedBy : Option String
deriving DecidableEq, Repr

/-- The SQLite store: the `workspace_teams` (ids only), `roles` and
`workspace_members` tables. -/
structure State where
  teams : List Nat
  roles : List SRole
  members : List SMember
deriving DecidableEq, Repr

/-- `WorkspaceMember::find_by_team_and_user`. -/
def findByTeamAndUser (st : State) (teamId : Nat) (userId : String) :
    Option SMember :=
  st.members.find? (fun m => decide (m.workspaceTeamId = teamId ∧ m.userId = userId))

/-- `Role::find_by_id`. -/
def roleFindById (st : State) (roleId : Nat) : Option SRole :=
  st.roles.find? (fun r => decide (r.id = roleId))

/-- `WorkspaceMember::count_by_role`. -/
def countByRole (st : State) (teamId roleId : Nat) : Nat :=
  st.members.countP (fun m => decide (m.workspaceTeamId = teamId ∧ m.roleId = roleId))

/-- `WorkspaceMember::update_role` (UPDATE by member id). -/
def memberUpdateRole (st : State) (memberId newRoleId : Nat) : State :=
  { st with members := st.members.map (fun m =>
      if m.id = memberId then { m with roleId := newRoleId } else m) }

/-- `WorkspaceMember::delete` (DELETE by member id). -/
def memberDelete (st : State) (memberId : Nat) : State :=
  { st with members := st.members.filter (fun m => !decide (m.id = memberId)) }

/-- `enum WorkspaceTeamServiceError` (database errors are out of scope). -/
inductive TeamError
  | teamNotFound | memberNotFound | roleNotFound | alreadyMember
  | lastOwner | lastOwnerRoleChange
  | permissionDenied (key : String) | systemRoleDelete
deriving DecidableEq, Repr

/-- `WorkspaceTeamService::add_member`: verify the team and the role exist,
fail with `AlreadyMember` when a membership row for the pair exists, otherwise
insert a fresh row (`freshId` stands for the generated UUID). -/
def add_member (st : State) (teamId : Nat) (userId : String) (roleId : Nat)
    (invitedBy : Option String) (freshId : Nat) :
    Except TeamError SMember × State :=
  if teamId ∈ st.teams then
    match roleFindById st roleId with
    | none => (.error .roleNotFound, st)
    | some _ =>
      match findByTeamAndUser st teamId userId with
      | some _ => (.error .alreadyMember, st)
      | none =>
        let m : SMember :=
          { id := freshId, workspaceTeamId := teamId, userId := userId,
            roleId := roleId, invitedBy := invitedBy }
        (.ok m, { st with members := st.members ++ [m] })
  else (.error .teamNotFound, st)

/-- `WorkspaceTeamService::update_member_role`: when changing a member away
from the Owner role, fail with `LastOwnerRoleChange` if the owner count is at
most one. -/
def update_member_role (st : State) (teamId : Nat) (memberUserId : String)
    (newRoleId : Nat) : Except TeamError SMember × State :=
  match findByTeamAndUser st teamId memberUserId with
  | none => (.error .memberNotFound, st)
  | some member =>
    match roleFindById st newRoleId with
    | none => (.error .roleNotFound, st)
    | some _ =>
      if member.roleId = OWNER ∧ ¬ newRoleId = OWNER ∧
          countByRole st teamId OWNER ≤ 1 then
        (.error .lastOwnerRoleChange, st)
      else
        (.ok { member with roleId := newRoleId },
         memberUpdateRole st member.id newRoleId)

/-- `WorkspaceTeamService::remove_member`: when removing an Owner, fail with
`LastOwner` if the owner count is at most one. -/
def remove_member (st : State) (teamId : Nat) (memberUserId : String) :
    Except TeamError Unit × State :=
  match findByTeamAndUser st teamId memberUserId with
  | none => (.error .memberNotFound, st)
  | some member =>
    if member.roleId = OWNER ∧ countByRole st teamId OWNER ≤ 1 then
      (.error .lastOwner, st)
    else
      (.ok (), memberDelete st member.id)

/-- `struct UpdateRole` (`role.rs`): a partial update payload. -/
structure UpdateRole where
  name : Option String
  description : Option String
deriving DecidableEq, Repr

/-- `let name = data.name.clone().unwrap_or(existing.name)` in `Role::update`. -/
def mergeName (data : UpdateRole) (existing : SRole) : String :=
  data.name.getD existing.name

/-- `let description = data.description.clone().or(existing.description)` in
`Role::update`. -/
def mergeDescription (data : UpdateRole) (existing : SRole) : Option String :=
  match data.description with
  | some d => some d
  | none => existing.description

/-- The merged row written back by `Role::update`. -/
def applyRoleUpdate (data : UpdateRole) (existing : SRole) : SRole :=
  { existing with
    name := mergeName data existing,
    description := mergeDescription data existing }

/-- `Role::update` (`role.rs`): look the row up (RowNotFound when absent),
merge the supplied fields with the existing values and overwrite the row.
There is no `is_system` guard on this path. -/
def roleUpdate (st : State) (id : Nat) (data : UpdateRole) :
    Except Unit SRole × State :=
  match roleFindById st id with
  | none => (.error (), st)
  | some existing =>
    (.ok (applyRoleUpdate data existing),
     { st with roles := st.roles.map (fun r =>
        if r.id = id then
          { r with
            name := mergeName data existing,
            description := mergeDescription data existing }
        else r) })

/-- `Role::delete` (`role.rs`): `DELETE FROM roles WHERE id = $1 AND
is_system = 0`, returning the number of rows affected.  No error is produced
for a system role; the statement simply matches no row. -/
def roleDelete (st : State) (id : Nat) : Nat × State :=
  (st.roles.countP (fun r => decide (r.id = id ∧ r.isSystem = false)),
   { st with roles := st.roles.filter (fun r => !decide (r.id = id ∧ r.isSystem = false)) })

end Service

/-! ### Claims C8 and C9: system-role protection on delete and update -/

/-- Concrete store for the C8 counterexample: the Owner system role only. -/
def c8State : Service.State :=
  { teams := [], members := [],
    roles := [{ id := 1, name := "Owner", description := none, isSystem := true }] }

/-- Claim C8 counterexample: deleting the system role `1` does NOT fail — the
call completes normally (there is no error channel in `Role::delete`, and the
service layer never returns `SystemRoleDelete` anywhere), reporting `0` rows
affected, with the role still present.  The claimed `SystemRoleDelete` failure
does not exist in the code. -/
theorem c8_delete_system_role_counterexample :
    Service.roleDelete c8State 1 = (0, c8State) ∧
      c8State.roles.any (fun r => decide (r.id = 1)) = true := by
  constructor
  · rfl
  · rfl

/-- Claim C8, amended: deleting a role whose `is_system` flag is true is a
silent no-op — the DELETE matches no row, `rows_affected` is `0` and the
role remains present; no `SystemRoleDelete` error is signaled (the service
error variant exists but is never produced).  Only non-system roles are
deleted. -/
theorem c8_delete_system_role_amended (st : Service.State) (id : Nat) :
    ((∀ r ∈ st.roles, r.id = id → r.isSystem = true) →
        Service.roleDelete st id = (0, st)) ∧
      (∀ r ∈ st.roles, r.id = id → r.isSystem = false →
        r ∉ (Service.roleDelete st id).2.roles) := by
  constructor
  · intro hsys
    have hcount :
        List.countP (fun r => decide (r.id = id ∧ r.isSystem = false)) st.roles = 0 := by
      rw [List.countP_eq_zero]
      intro r hr
      simp only [decide_eq_true_eq, not_and]
      intro hid hns
      exact absurd (hsys r hr hid) (by simp [hns])
    have hfil :
        List.filter (fun r => !decide (r.id = id ∧ r.isSystem = false)) st.roles = st.roles := by
      apply List.filter_eq_self.mpr
      intro r hr
      simp only [Bool.not_eq_true', decide_eq_false_iff_not, not_and]
      intro hid
      simp [hsys r hr hid]
    unfold Service.roleDelete
    rw [hcount, hfil]
  · intro r hr hid hns hmem
    unfold Service.roleDelete at hmem
    simp only [List.mem_filter] at hmem
    have := hmem.2
    simp [hid, hns] at this

theorem c8_delete_system_role_amended_witness :
    (Service.roleDelete c8State 1 = (0, c8State)) ∧
      ({ id := 2, name := "Custom", description := none, isSystem := false } ∉
        (Service.roleDelete
          { teams := [], members := [],
            roles := [{ id := 2, name := "Custom", description := none,
                        isSystem := false }] } 2).2.roles) :=
  ⟨(c8_delete_system_role_amended c8State 1).1 (by decide),
   (c8_delete_system_role_amended
      { teams := [], members := [],
        roles := [{ id := 2, name := "Custom", description := none,
                    isSystem := false }] } 2).2
      { id := 2, name := "Custom", description := none, isSystem := false }
      (by decide) (by decide) (by decide)⟩

/-- Concrete store for the C9 counterexample: the Owner system role only. -/
def c9State : Service.State :=
  { teams := [], members := [],
    roles := [{ id := 1, name := "Owner", description := none, isSystem := true }] }

/-- Claim C9 counterexample: `Role::update` has no `is_system` guard.
Updating the system role `1` (`name = "Owner"`, `is_system = true`) with a new
name succeeds and renames the stored role to `"Renamed"`, so system roles are
NOT immutable under the role-update operation. -/
theorem c9_update_system_role_counterexample :
    (Service.roleUpdate c9State 1 { name := some "Renamed", description := none }).2.roles =
      [{ id := 1, name := "Renamed", description := none, isSystem := true }] ∧
    (Service.roleUpdate c9State 1 { name := some "Renamed", description := none }).1 =
      Except.ok { id := 1, name := "Renamed", description := none, isSystem := true } := by
  constructor
  · rfl
  · rfl

/-- Claim C9, amended: `Role::update` treats system and custom roles alike —
it is a partial update on any existing role: a supplied field overwrites, an
omitted `name` keeps the prior name, an omitted `description` keeps the prior
description, `is_system` and `id` are untouched, and rows with other ids are
unchanged.  System-role immutability is enforced only for deletion, not for
update. -/
theorem c9_role_update_partial_amended (st : Service.State) (id : Nat)
    (data : Service.UpdateRole) (existing : Service.SRole)
    (h : Service.roleFindById st id = some existing) :
    (Service.roleUpdate st id data).1 =
        Except.ok (Service.applyRoleUpdate data existing) ∧
      (Service.applyRoleUpdate data existing).isSystem = existing.isSystem ∧
      (Service.applyRoleUpdate data existing).id = existing.id ∧
      (data.name = none →
        (Service.applyRoleUpdate data existing).name = existing.name) ∧
      (∀ n, data.name = some n → (Service.applyRoleUpdate data existing).name = n) ∧
      (data.description = none →
        (Service.applyRoleUpdate data existing).description = existing.description) ∧
      (∀ d, data.description = some d →
        (Service.applyRoleUpdate data existing).description = some d) ∧
      Service.applyRoleUpdate data existing ∈ (Service.roleUpdate st id data).2.roles ∧
      (∀ r ∈ st.roles, ¬ r.id = id → r ∈ (Service.roleUpdate st id data).2.roles) := by
  have hmem : existing ∈ st.roles := List.mem_of_find?_eq_some h
  have hid : existing.id = id := by
    have := List.find?_some h
    simpa using this
  refine ⟨?_, rfl, rfl, ?_, ?_, ?_, ?_, ?_, ?_⟩
  · unfold Service.roleUpdate
    rw [h]
  · intro hn
    simp [Service.applyRoleUpdate, Service.mergeName, hn]
  · intro n hn
    simp [Service.applyRoleUpdate, Service.mergeName, hn]
  · intro hd
    simp [Service.applyRoleUpdate, Service.mergeDescription, hd]
  · intro d hd
    simp [Service.applyRoleUpdate, Service.mergeDescription, hd]
  · unfold Service.roleUpdate
    rw [h]
    simp only
    have heq : (fun r : Service.SRole =>
        if r.id = id then
          { r with
            name := Service.mergeName data existing,
            description := Service.mergeDescription data existing }
        else r) existing = Service.applyRoleUpdate data existing := by
      simp [Service.applyRoleUpdate, hid]
    exact heq ▸ List.mem_map_of_mem _ hmem
  · intro r hr hrid
    unfold Service.roleUpdate
    rw [h]
    simp only
    have heq : (fun r : Service.SRole =>
        if r.id = id then
          { r with
            name := Service.mergeName data existing,
            description := Service.mergeDescription data existing }
        else r) r = r := if_neg hrid
    exact heq ▸ List.mem_map_of_mem _ hr

theorem c9_role_update_partial_amended_witness :
    (Service.roleUpdate c9State 1 { name := none, description := some "d" }).1 =
        Except.ok (Service.applyRoleUpdate { name := none, description := some "d" }
          { id := 1, name := "Owner", description := none, isSystem := true }) ∧
      (Service.applyRoleUpdate { name := none, description := some "d" }
          { id := 1, name := "Owner", description := none, isSystem := true }).isSystem = true :=
  by
  have h := c9_role_update_partial_amended c9State 1
    { name := none, description := some "d" }
    { id := 1, name := "Owner", description := none, isSystem := true } (by decide)
  exact ⟨h.1, h.2.1⟩


/-! ## Remote deployment: `remote/src/db/workspace_members.rs`,
`remote/src/db/workspace_invitations.rs` and
`remote/src/routes/workspace_members.rs`.  UUIDs are abstracted to `Nat` and
timestamps to `Int`. -/

namespace Remote

/-- Modelled from the spec: `MemberRole` lives in
`utils::api::organizations`, which is not part of the source excerpt.  The
spec describes the remote catalog as two tiers with `Admin` as the top role,
and the excerpted code matches only the `admin` and `member` variants. -/
inductive MemberRole
  | admin | member
deriving DecidableEq, Repr

/-- Modelled from the spec: `InvitationStatus` (also in
`utils::api::organizations`) with the states of the invitation state machine,
`pending | accepted | revoked | expired`. -/
inductive InvitationStatus
  | pending | accepted | revoked | expired
deriving DecidableEq, Repr

/-- `enum WorkspacePermission` (`utils/api/workspaces.rs`). -/
inductive WorkspacePermission
  | memberInvite | memberRemove | memberRoleChange
deriving DecidableEq, Repr

/-- The `permission_str` match in `has_permission`: the serialized key of a
`WorkspacePermission`. -/
def permissionStr : WorkspacePermission → String
  | .memberInvite => "member.invite"
  | .memberRemove => "member.remove"
  | .memberRoleChange => "member.role.change"

/-- A row of `workspace_member_metadata`: role plus an explicit permission
array. -/
structure RMember where
  workspaceId : Nat
  userId : Nat
  role : MemberRole
  permissions : List String
deriving DecidableEq, Repr

/-- A row of `workspace_invitations`. -/
structure RInvitation where
  id : Nat
  workspaceId : Nat
  email : String
  role : MemberRole
  status : InvitationStatus
  token : String
  expiresAt : Int
deriving DecidableEq, Repr

/-- The Postgres store: `workspace_member_metadata` and
`workspace_invitations`. -/
structure State where
  members : List RMember
  invitations : List RInvitation
deriving DecidableEq, Repr

/-- `IdentityError` (the variants the membership code produces). -/
inductive IdentityError
  | notFound
  | permissionDenied
  | invitationError (msg : String)
deriving DecidableEq, Repr

/-- An HTTP-level error as built by the route handlers: status code plus
message. -/
structure ErrResp where
  status : Nat
  message : String
deriving DecidableEq, Repr

/-- The row filter `workspace_id = $1 AND user_id = $2`. -/
def memberPred (ws u : Nat) (m : RMember) : Bool :=
  decide (m.workspaceId = ws ∧ m.userId = u)

/-- `add_member` (`db/workspace_members.rs`): `INSERT ... ON CONFLICT
(workspace_id, user_id) DO UPDATE SET role = EXCLUDED.role`.  A fresh row gets
an empty permission array (the INSERT supplies no `permissions` value). -/
def add_member (st : State) (ws u : Nat) (role : MemberRole) : State :=
  if st.members.any (memberPred ws u) then
    { st with members := st.members.map (fun m =>
        if memberPred ws u m then { m with role := role } else m) }
  else
    { st with members := st.members ++
        [{ workspaceId := ws, userId := u, role := role, permissions := [] }] }

/-- `check_user_role`. -/
def check_user_role (st : State) (ws u : Nat) : Option MemberRole :=
  (st.members.find? (memberPred ws u)).map (fun m => m.role)

/-- `is_member`. -/
def is_member (st : State) (ws u : Nat) : Bool :=
  st.members.any (memberPred ws u)

/-- `has_permission` (`db/workspace_members.rs`): admins bypass the check,
otherwise the permission key must occur in the row's explicit `permissions`
array. -/
def has_permission (st : State) (ws u : Nat) (p : WorkspacePermission) : Bool :=
  match check_user_role st ws u with
  | some .admin => true
  | _ => st.members.any (fun m =>
      memberPred ws u m && m.permissions.contains (permissionStr p))

/-- Modelled from the spec: `membership_error` (defined in
`routes/error.rs`, outside the excerpt) wraps an `IdentityError` into the
HTTP error taxonomy of section 7: `PermissionDenied` becomes a 403 with the
supplied message and `NotFound` a 404. -/
def membership_error (e : IdentityError) (msg : String) : ErrResp :=
  match e with
  | .permissionDenied => { status := 403, message := msg }
  | .notFound => { status := 404, message := msg }
  | .invitationError m => { status := 400, message := m }

/-- The `SELECT user_id ... WHERE workspace_id = $1 AND role = 'admin'`
query of the route handlers. -/
def adminIds (st : State) (ws : Nat) : List Nat :=
  (st.members.filter (fun m =>
    decide (m.workspaceId = ws ∧ m.role = MemberRole.admin))).map (fun m => m.userId)

/-- `DELETE FROM workspace_member_metadata WHERE workspace_id = $1 AND
user_id = $2`. -/
def deleteMember (st : State) (ws u : Nat) : State :=
  { st with members := st.members.filter (fun m => !memberPred ws u m) }

/-- `UPDATE workspace_member_metadata SET role = $3 WHERE workspace_id = $1
AND user_id = $2`. -/
def setMemberRole (st : State) (ws u : Nat) (role : MemberRole) : State :=
  { st with members := st.members.map (fun m =>
      if memberPred ws u m then { m with role := role } else m) }

/-- The `remove_member` route handler (`routes/workspace_members.rs`): the
self-removal guard runs first, then the `member.remove` permission check,
then inside a transaction the target row is locked, absence is a 404, the
last-admin invariant is checked against the locked admin rows and a violation
is a 409 conflict; otherwise the row is deleted. -/
def remove_member_route (st : State) (callerId ws targetId : Nat) :
    Except ErrResp Unit × State :=
  if callerId = targetId then
    (.error { status := 400, message := "Cannot remove yourself" }, st)
  else if has_permission st ws callerId .memberRemove then
    match check_user_role st ws targetId with
    | none => (.error { status := 404, message := "Member not found" }, st)
    | some targetRole =>
      if targetRole = MemberRole.admin ∧ adminIds st ws = [targetId] then
        (.error { status := 409, message := "Cannot remove the last admin" }, st)
      else
        (.ok (), deleteMember st ws targetId)
  else
    (.error (membership_error .permissionDenied
      "Permission denied: member.remove required"), st)

/-- The `update_member_role` route handler: the self-demotion guard runs
first, then the `member.role.change` permission check, then the target row is
locked (404 when absent), an update to the current role returns early without
writing, demoting the sole admin is a 409 conflict, and otherwise the role is
updated. -/
def update_member_role_route (st : State) (callerId ws targetId : Nat)
    (payloadRole : MemberRole) : Except ErrResp (Nat × MemberRole) × State :=
  if callerId = targetId ∧ payloadRole = MemberRole.member then
    (.error { status := 400, message := "Cannot demote yourself" }, st)
  else if has_permission st ws callerId .memberRoleChange then
    match check_user_role st ws targetId with
    | none => (.error { status := 404, message := "Member not found" }, st)
    | some targetRole =>
      if targetRole = payloadRole then
        (.ok (targetId, payloadRole), st)
      else if targetRole = MemberRole.admin ∧ payloadRole = MemberRole.member ∧
          adminIds st ws = [targetId] then
        (.error { status := 409, message := "Cannot demote the last admin" }, st)
      else
        (.ok (targetId, payloadRole), setMemberRole st ws targetId payloadRole)
  else
    (.error (membership_error .permissionDenied
      "Permission denied: member.role.change required"), st)

/-- `UPDATE workspace_invitations SET status = $2 WHERE id = $1`. -/
def setInvitationStatus (st : State) (invId : Nat) (s : InvitationStatus) :
    State :=
  { st with invitations := st.invitations.map (fun i =>
      if i.id = invId then { i with status := s } else i) }

/-- `WorkspaceInvitationRepository::accept_invitation`: inside one
transaction, look up the pending row by token (failure when absent or
non-pending), persist an `expired` transition and fail when past expiry,
fail without a write when the principal is already a member, otherwise
upsert the membership, mark the invitation accepted and commit. -/
def accept_invitation (st : State) (now : Int) (token : String) (userId : Nat) :
    Except IdentityError (Nat × MemberRole) × State :=
  match st.invitations.find? (fun i =>
      decide (i.token = token ∧ i.status = InvitationStatus.pending)) with
  | none => (.error (.invitationError "Invitation not found or already used"), st)
  | some inv =>
    if inv.expiresAt < now then
      (.error (.invitationError "Invitation has expired"),
       setInvitationStatus st inv.id .expired)
    else if is_member st inv.workspaceId userId then
      (.error (.invitationError "You are already a member of this workspace"), st)
    else
      (.ok (inv.workspaceId, inv.role),
       setInvitationStatus (add_member st inv.workspaceId userId inv.role)
         inv.id .accepted)

/-- The §3 invariant that invitation tokens are unique per row, keyed on the
id so that duplicate rows are not excluded. -/
abbrev tokensUnique (st : State) : Prop :=
  ∀ i ∈ st.invitations, ∀ j ∈ st.invitations, i.token = j.token → i.id = j.id

/-- Number of membership rows for one (workspace, principal) pair. -/
def pairCount (st : State) (ws u : Nat) : Nat :=
  st.members.countP (memberPred ws u)

end Remote

/-! ### Claim C5: self-removal and self-demotion are rejected first -/

/-- Claim C5: a remove-member request targeting the caller's own membership,
and a role-change request demoting the caller to the non-admin role, are
rejected unconditionally with a distinct cannot-act-on-self 400 error before
any permission or last-admin invariant check runs (the statement holds for
every store, including ones where the caller has no permission or is the sole
admin), leaving all state unchanged. -/
theorem c5_cannot_act_on_self (st : Remote.State) (ws caller : Nat) :
    Remote.remove_member_route st caller ws caller =
      (.error { status := 400, message := "Cannot remove yourself" }, st) ∧
    Remote.update_member_role_route st caller ws caller Remote.MemberRole.member =
      (.error { status := 400, message := "Cannot demote yourself" }, st) := by
  constructor
  · unfold Remote.remove_member_route
    rw [if_pos rfl]
  · unfold Remote.update_member_role_route
    rw [if_pos ⟨rfl, rfl⟩]

/-! ### Claim C1: the last top-tier member is protected -/

/-- Claim C1: the remove-member and update-member-role operations never drop
the top-tier count from one to zero.  Service deployment (top tier `Owner`):
when the target holds the Owner role and the owner count is at most one,
`remove_member` fails with `LastOwner` and `update_member_role` away from
Owner fails with `LastOwnerRoleChange`, both leaving the store unchanged.
Remote deployment (top tier `Admin`): when the target is an admin and the
admin rows are exactly the target, the remove and demote handlers fail with a
409 conflict, leaving the store unchanged. -/
theorem c1_last_top_tier_member_protected :
    (∀ st t u (m : Service.SMember), Service.findByTeamAndUser st t u = some m →
      m.roleId = Service.OWNER → Service.countByRole st t Service.OWNER ≤ 1 →
      Service.remove_member st t u = (.error .lastOwner, st)) ∧
    (∀ st t u (m : Service.SMember) nr (r : Service.SRole),
      Service.findByTeamAndUser st t u = some m →
      Service.roleFindById st nr = some r →
      m.roleId = Service.OWNER → ¬ nr = Service.OWNER →
      Service.countByRole st t Service.OWNER ≤ 1 →
      Service.update_member_role st t u nr = (.error .lastOwnerRoleChange, st)) ∧
    (∀ (st : Remote.State) caller ws target, ¬ caller = target →
      Remote.has_permission st ws caller .memberRemove = true →
      Remote.check_user_role st ws target = some .admin →
      Remote.adminIds st ws = [target] →
      Remote.remove_member_route st caller ws target =
        (.error { status := 409, message := "Cannot remove the last admin" }, st)) ∧
    (∀ (st : Remote.State) caller ws target, ¬ caller = target →
      Remote.has_permission st ws caller .memberRoleChange = true →
      Remote.check_user_role st ws target = some .admin →
      Remote.adminIds st ws = [target] →
      Remote.update_member_role_route st caller ws target .member =
        (.error { status := 409, message := "Cannot demote the last admin" }, st)) := by
  refine ⟨?_, ?_, ?_, ?_⟩
  · intro st t u m hfind hrole hcount
    simp [Service.remove_member, hfind, hrole, hcount]
  · intro st t u m nr r hfind hrfind hrole hnr hcount
    simp [Service.update_member_role, hfind, hrfind, hrole, hnr, hcount]
  · intro st caller ws target hne hperm hrole hadmins
    simp [Remote.remove_member_route, hne, hperm, hrole, hadmins]
  · intro st caller ws target hne hperm hrole hadmins
    simp [Remote.update_member_role_route, hne, hperm, hrole, hadmins]

/-- Concrete service store for the C1 witness: team `1` with `"alice"` as its
only member, holding the Owner role. -/
def c1ServiceState : Service.State :=
  { teams := [1],
    roles := [{ id := 1, name := "Owner", description := none, isSystem := true },
              { id := 3, name := "Member", description := none, isSystem := true }],
    members := [{ id := 10, workspaceTeamId := 1, userId := "alice",
                  roleId := 1, invitedBy := none }] }

/-- Concrete remote store for the C1 witness: workspace `1` with sole admin
`2` and a member `3` who holds the removal and role-change permission keys. -/
def c1RemoteState : Remote.State :=
  { members := [{ workspaceId := 1, userId := 2, role := .admin, permissions := [] },
                { workspaceId := 1, userId := 3, role := .member,
                  permissions := ["member.remove", "member.role.change"] }],
    invitations := [] }

theorem c1_last_top_tier_member_protected_witness :
    Service.remove_member c1ServiceState 1 "alice" =
      (.error .lastOwner, c1ServiceState) ∧
    Service.update_member_role c1ServiceState 1 "alice" 3 =
      (.error .lastOwnerRoleChange, c1ServiceState) ∧
    Remote.remove_member_route c1RemoteState 3 1 2 =
      (.error { status := 409, message := "Cannot remove the last admin" },
       c1RemoteState) ∧
    Remote.update_member_role_route c1RemoteState 3 1 2 .member =
      (.error { status := 409, message := "Cannot demote the last admin" },
       c1RemoteState) :=
  ⟨c1_last_top_tier_member_protected.1 c1ServiceState 1 "alice"
      { id := 10, workspaceTeamId := 1, userId := "alice", roleId := 1,
        invitedBy := none } (by decide) (by decide) (by decide),
   c1_last_top_tier_member_protected.2.1 c1ServiceState 1 "alice"
      { id := 10, workspaceTeamId := 1, userId := "alice", roleId := 1,
        invitedBy := none } 3
      { id := 3, name := "Member", description := none, isSystem := true }
      (by decide) (by decide) (by decide) (by decide) (by decide),
   c1_last_top_tier_member_protected.2.2.1 c1RemoteState 3 1 2
      (by decide) (by decide) (by decide) (by decide),
   c1_last_top_tier_member_protected.2.2.2 c1RemoteState 3 1 2
      (by decide) (by decide) (by decide) (by decide)⟩

/-! ### List helper lemmas shared by the membership claims -/

/-- If a predicate holds at no more than one position of a list, two members
that both satisfy it are equal. -/
theorem countP_le_one_eq {α : Type} (p : α → Bool) :
    ∀ l : List α, l.countP p ≤ 1 →
      ∀ a ∈ l, ∀ b ∈ l, p a = true → p b = true → a = b := by
  intro l
  induction l with
  | nil =>
    intro _ a ha
    cases ha
  | cons x xs ih =>
    intro hc a ha b hb hpa hpb
    rw [List.countP_cons] at hc
    rcases List.mem_cons.mp ha with rfl | ha'
    · rcases List.mem_cons.mp hb with rfl | hb'
      · rfl
      · exfalso
        have h0 : xs.countP p = 0 := by
          simp only [hpa, if_true] at hc
          omega
        exact (List.countP_eq_zero.mp h0) b hb' hpb
    · rcases List.mem_cons.mp hb with rfl | hb'
      · exfalso
        have h0 : xs.countP p = 0 := by
          simp only [hpb, if_true] at hc
          omega
        exact (List.countP_eq_zero.mp h0) a ha' hpa
      · exact ih (le_trans (Nat.le_add_right _ _) hc) a ha' b hb' hpa hpb

/-- `find?` commutes with a map that does not change the predicate. -/
theorem find?_map_pred_eq {α : Type} (p : α → Bool) (f : α → α)
    (hf : ∀ x, p (f x) = p x) (l : List α) :
    (l.map f).find? p = (l.find? p).map f := by
  induction l with
  | nil => rfl
  | cons x xs ih =>
    rw [List.map_cons]
    cases hx : p x with
    | false =>
      rw [List.find?_cons_of_neg _ (by simp [hf x, hx]),
          List.find?_cons_of_neg _ (by simp [hx])]
      exact ih
    | true =>
      rw [List.find?_cons_of_pos _ (by rw [hf x]; exact hx),
          List.find?_cons_of_pos _ hx]
      rfl

/-- `countP` is unchanged by a map that does not change the predicate. -/
theorem countP_map_pred_eq {α : Type} (p : α → Bool) (f : α → α)
    (hf : ∀ x, p (f x) = p x) (l : List α) :
    (l.map f).countP p = l.countP p := by
  induction l with
  | nil => rfl
  | cons x xs ih =>
    rw [List.map_cons, List.countP_cons, List.countP_cons, hf x, ih]

/-- A list on which `any` fails has `countP` zero. -/
theorem countP_eq_zero_of_any_eq_false {α : Type} (p : α → Bool) (l : List α)
    (h : l.any p = false) : l.countP p = 0 := by
  rw [List.countP_eq_zero]
  intro a ha
  rw [List.any_eq_false] at h
  exact h a ha

/-- The upsert's row-update function leaves every (workspace, user) filter
unchanged: it only rewrites the role field. -/
theorem memberPred_upsert (ws u ws' u' : Nat) (role : Remote.MemberRole)
    (x : Remote.RMember) :
    Remote.memberPred ws' u'
        (if Remote.memberPred ws u x then { x with role := role } else x) =
      Remote.memberPred ws' u' x := by
  cases hx : Remote.memberPred ws u x with
  | false => rw [if_neg (by simp)]
  | true =>
    rw [if_pos rfl]
    simp [Remote.memberPred]

/-- The conflict branch of the remote `add_member` upsert. -/
theorem add_member_members_of_present (st : Remote.State) (ws u : Nat)
    (role : Remote.MemberRole)
    (h : st.members.any (Remote.memberPred ws u) = true) :
    (Remote.add_member st ws u role).members =
      st.members.map (fun m =>
        if Remote.memberPred ws u m then { m with role := role } else m) := by
  unfold Remote.add_member
  rw [if_pos h]

/-- The insert branch of the remote `add_member` upsert. -/
theorem add_member_members_of_absent (st : Remote.State) (ws u : Nat)
    (role : Remote.MemberRole)
    (h : st.members.any (Remote.memberPred ws u) = false) :
    (Remote.add_member st ws u role).members =
      st.members ++ [{ workspaceId := ws, userId := u, role := role,
                       permissions := [] }] := by
  unfold Remote.add_member
  rw [if_neg (by simp [h])]

/-! ### Claim C7: admin bypass and explicit permission arrays -/

/-- Claim C7: in the remote deployment, if the user's membership row carries
the Admin role then `has_permission` returns true for every permission,
regardless of the content of the row's explicit permission array; for a
non-admin member (and at most one row per pair, the schema's uniqueness
constraint) it returns exactly whether the permission's key occurs in that
row's array. -/
theorem c7_has_permission_admin_bypass (st : Remote.State) (ws u : Nat) :
    (∀ p, Remote.check_user_role st ws u = some .admin →
      Remote.has_permission st ws u p = true) ∧
    (∀ p (m : Remote.RMember), Remote.pairCount st ws u ≤ 1 →
      st.members.find? (Remote.memberPred ws u) = some m →
      m.role = .member →
      Remote.has_permission st ws u p =
        m.permissions.contains (Remote.permissionStr p)) := by
  constructor
  · intro p h
    simp [Remote.has_permission, h]
  · intro p m hcount hfind hrole
    have hm_mem : m ∈ st.members := List.mem_of_find?_eq_some hfind
    have hm_pred : Remote.memberPred ws u m = true := List.find?_some hfind
    have hrole' : Remote.check_user_role st ws u = some Remote.MemberRole.member := by
      simp [Remote.check_user_role, hfind, hrole]
    unfold Remote.has_permission
    rw [hrole']
    show st.members.any (fun m' =>
        Remote.memberPred ws u m' &&
          m'.permissions.contains (Remote.permissionStr p)) =
      m.permissions.contains (Remote.permissionStr p)
    cases hc : m.permissions.contains (Remote.permissionStr p) with
    | true =>
      rw [List.any_eq_true]
      exact ⟨m, hm_mem, by rw [hm_pred, hc]; rfl⟩
    | false =>
      rw [List.any_eq_false]
      intro x hx
      cases hpx : Remote.memberPred ws u x with
      | false => simp [hpx]
      | true =>
        have hxm : x = m :=
          countP_le_one_eq _ st.members hcount x hx m hm_mem hpx hm_pred
        subst hxm
        rw [Bool.not_eq_true, Bool.true_and]
        exact hc

/-- Concrete remote store for the C7 witness: an admin with an empty
permission array and a member holding only `member.invite`. -/
def c7RemoteState : Remote.State :=
  { members := [{ workspaceId := 1, userId := 5, role := .admin, permissions := [] },
                { workspaceId := 1, userId := 6, role := .member,
                  permissions := ["member.invite"] }],
    invitations := [] }

theorem c7_has_permission_admin_bypass_witness :
    Remote.has_permission c7RemoteState 1 5 .memberRemove = true ∧
    Remote.has_permission c7RemoteState 1 6 .memberInvite =
      (["member.invite"] : List String).contains
        (Remote.permissionStr .memberInvite) :=
  ⟨(c7_has_permission_admin_bypass c7RemoteState 1 5).1 .memberRemove (by decide),
   (c7_has_permission_admin_bypass c7RemoteState 1 6).2 .memberInvite
      { workspaceId := 1, userId := 6, role := .member,
        permissions := ["member.invite"] }
      (by decide) (by decide) (by decide)⟩

/-! ### Claim C2: add-member uniqueness -/

/-- Number of `workspace_members` rows for one (team, user) pair in the
service store. -/
def Service.pairCount (st : Service.State) (teamId : Nat) (userId : String) : Nat :=
  st.members.countP (fun m => decide (m.workspaceTeamId = teamId ∧ m.userId = userId))

/-- Concrete remote store for the C2 counterexample: user `5` is already a
member of workspace `1` with role `member`. -/
def c2RemoteState : Remote.State :=
  { members := [{ workspaceId := 1, userId := 5, role := .member, permissions := [] }],
    invitations := [] }

/-- Claim C2 counterexample: in the remote deployment a second `add_member`
for an existing (workspace, principal) pair does NOT fail with
`AlreadyMember` — `add_member` is an `ON CONFLICT DO UPDATE` upsert with no
error channel, and it OVERWRITES the existing row's role (here from `member`
to `admin`), so the existing membership is not left unchanged. -/
theorem c2_add_member_counterexample :
    Remote.check_user_role c2RemoteState 1 5 = some .member ∧
    (Remote.add_member c2RemoteState 1 5 .admin).members =
      [{ workspaceId := 1, userId := 5, role := .admin, permissions := [] }] := by
  constructor
  · rfl
  · rfl

/-- Claim C2, amended: in the service deployment a second `add_member` for an
existing (team, user) pair fails with `AlreadyMember` and leaves the store
unchanged; in the remote deployment `add_member` is an upsert — on an
existing pair it succeeds and refreshes the row's role to the supplied one.
In both deployments at most one membership row per pair is preserved: the
upsert rewrites rows in place and the service inserts only after finding no
row for the pair. -/
theorem c2_add_member_uniqueness_amended :
    (∀ st t u rid inv fid (r : Service.SRole) (m : Service.SMember),
      t ∈ st.teams → Service.roleFindById st rid = some r →
      Service.findByTeamAndUser st t u = some m →
      Service.add_member st t u rid inv fid = (.error .alreadyMember, st)) ∧
    (∀ (st : Remote.State) ws u role (m : Remote.RMember),
      st.members.find? (Remote.memberPred ws u) = some m →
      Remote.check_user_role (Remote.add_member st ws u role) ws u = some role) ∧
    (∀ (st : Remote.State) ws u role ws' u',
      Remote.pairCount st ws' u' ≤ 1 →
      Remote.pairCount (Remote.add_member st ws u role) ws' u' ≤ 1) ∧
    (∀ st t u rid inv fid t' u',
      Service.pairCount st t' u' ≤ 1 →
      Service.pairCount (Service.add_member st t u rid inv fid).2 t' u' ≤ 1) := by
  refine ⟨?_, ?_, ?_, ?_⟩
  · intro st t u rid inv fid r m ht hr hfind
    simp [Service.add_member, ht, hr, hfind]
  · intro st ws u role m hfind
    have hm_mem : m ∈ st.members := List.mem_of_find?_eq_some hfind
    have hm_pred : Remote.memberPred ws u m = true := List.find?_some hfind
    have hany : st.members.any (Remote.memberPred ws u) = true :=
      List.any_eq_true.mpr ⟨m, hm_mem, hm_pred⟩
    unfold Remote.check_user_role
    rw [add_member_members_of_present st ws u role hany,
        find?_map_pred_eq _ _ (fun x => memberPred_upsert ws u ws u role x),
        hfind]
    simp [hm_pred]
  · intro st ws u role ws' u' hcount
    unfold Remote.pairCount at hcount ⊢
    cases hany : st.members.any (Remote.memberPred ws u) with
    | true =>
      rw [add_member_members_of_present st ws u role hany,
          countP_map_pred_eq _ _ (fun x => memberPred_upsert ws u ws' u' role x)]
      exact hcount
    | false =>
      rw [add_member_members_of_absent st ws u role hany, List.countP_append]
      cases hnew : Remote.memberPred ws' u'
          { workspaceId := ws, userId := u, role := role, permissions := [] } with
      | false =>
        have h1 : List.countP (Remote.memberPred ws' u')
            [{ workspaceId := ws, userId := u, role := role, permissions := [] }] = 0 := by
          simp [List.countP_cons, hnew]
        rw [h1]
        omega
      | true =>
        have hw : ws = ws' ∧ u = u' := by
          simpa [Remote.memberPred] using hnew
        obtain ⟨rfl, rfl⟩ := hw
        have h0 : List.countP (Remote.memberPred ws u) st.members = 0 :=
          countP_eq_zero_of_any_eq_false _ _ hany
        have h1 : List.countP (Remote.memberPred ws u)
            [{ workspaceId := ws, userId := u, role := role, permissions := [] }] ≤ 1 := by
          simp [List.countP_cons, hnew]
        omega
  · intro st t u rid inv fid t' u' hcount
    unfold Service.pairCount at hcount ⊢
    unfold Service.add_member
    by_cases ht : t ∈ st.teams
    · rw [if_pos ht]
      cases hr : Service.roleFindById st rid with
      | none => exact hcount
      | some r =>
        cases hf : Service.findByTeamAndUser st t u with
        | some m => exact hcount
        | none =>
          show List.countP _ (st.members ++ [_]) ≤ 1
          rw [List.countP_append]
          cases hnew : (fun m : Service.SMember =>
              decide (m.workspaceTeamId = t' ∧ m.userId = u'))
              { id := fid, workspaceTeamId := t, userId := u, roleId := rid,
                invitedBy := inv } with
          | false =>
            have h1 : List.countP (fun m : Service.SMember =>
                decide (m.workspaceTeamId = t' ∧ m.userId = u'))
                [{ id := fid, workspaceTeamId := t, userId := u, roleId := rid,
                   invitedBy := inv }] = 0 := by
              simp only [List.countP_cons, List.countP_nil]
              rw [if_neg (by simp [hnew])]
            rw [h1]
            omega
          | true =>
            have hw : t = t' ∧ u = u' := by
              simpa using hnew
            obtain ⟨rfl, rfl⟩ := hw
            unfold Service.findByTeamAndUser at hf
            have h0 : List.countP (fun m : Service.SMember =>
                decide (m.workspaceTeamId = t ∧ m.userId = u)) st.members = 0 := by
              rw [List.countP_eq_zero]
              intro a ha
              exact List.find?_eq_none.mp hf a ha
            have h1 : List.countP (fun m : Service.SMember =>
                decide (m.workspaceTeamId = t ∧ m.userId = u))
                [{ id := fid, workspaceTeamId := t, userId := u, roleId := rid,
                   invitedBy := inv }] ≤ 1 := by
              simp [List.countP_cons]
            omega
    · rw [if_neg ht]
      exact hcount

/-- Concrete service store for the C2 witness: team `1` with `"alice"`
already a member. -/
def c2ServiceState : Service.State :=
  { teams := [1],
    roles := [{ id := 3, name := "Member", description := none, isSystem := true }],
    members := [{ id := 10, workspaceTeamId := 1, userId := "alice",
                  roleId := 3, invitedBy := none }] }

theorem c2_add_member_uniqueness_amended_witness :
    Service.add_member c2ServiceState 1 "alice" 3 none 11 =
      (.error .alreadyMember, c2ServiceState) ∧
    Remote.check_user_role (Remote.add_member c2RemoteState 1 5 .admin) 1 5 =
      some .admin ∧
    Remote.pairCount (Remote.add_member c2RemoteState 1 5 .admin) 1 5 ≤ 1 ∧
    Service.pairCount (Service.add_member c2ServiceState 1 "bob" 3 none 11).2
      1 "bob" ≤ 1 :=
  ⟨c2_add_member_uniqueness_amended.1 c2ServiceState 1 "alice" 3 none 11
      { id := 3, name := "Member", description := none, isSystem := true }
      { id := 10, workspaceTeamId := 1, userId := "alice", roleId := 3,
        invitedBy := none }
      (by decide) (by decide) (by decide),
   c2_add_member_uniqueness_amended.2.1 c2RemoteState 1 5 .admin
      { workspaceId := 1, userId := 5, role := .member, permissions := [] }
      (by decide),
   c2_add_member_uniqueness_amended.2.2.1 c2RemoteState 1 5 .admin 1 5
      (by decide),
   c2_add_member_uniqueness_amended.2.2.2 c2ServiceState 1 "bob" 3 none 11
      1 "bob" (by decide)⟩

/-! ### Claims C3 and C4: the invitation state machine -/

/-- `add_member` touches only the membership table. -/
theorem add_member_invitations (st : Remote.State) (ws u : Nat)
    (role : Remote.MemberRole) :
    (Remote.add_member st ws u role).invitations = st.invitations := by
  unfold Remote.add_member
  split <;> rfl

/-- Claim C4: for a pending invitation whose `expires_at` is in the past,
`accept_invitation` transitions the invitation's status to expired, commits
that transition (the returned state carries it even though the call fails
with the expired error), and creates no membership row. -/
theorem c4_expired_invitation_transition_persisted (st : Remote.State)
    (now : Int) (tok : String) (u : Nat) (inv : Remote.RInvitation)
    (hfind : st.invitations.find? (fun i =>
        decide (i.token = tok ∧ i.status = Remote.InvitationStatus.pending)) = some inv)
    (hexp : inv.expiresAt < now) :
    Remote.accept_invitation st now tok u =
      (.error (.invitationError "Invitation has expired"),
       Remote.setInvitationStatus st inv.id .expired) ∧
    (Remote.accept_invitation st now tok u).2.members = st.members ∧
    { inv with status := Remote.InvitationStatus.expired } ∈
      (Remote.accept_invitation st now tok u).2.invitations := by
  have hmain : Remote.accept_invitation st now tok u =
      (.error (.invitationError "Invitation has expired"),
       Remote.setInvitationStatus st inv.id .expired) := by
    simp only [Remote.accept_invitation, hfind]
    rw [if_pos hexp]
  refine ⟨hmain, ?_, ?_⟩
  · rw [hmain]
    rfl
  · rw [hmain]
    show { inv with status := Remote.InvitationStatus.expired } ∈
      st.invitations.map (fun i =>
        if i.id = inv.id then { i with status := Remote.InvitationStatus.expired }
        else i)
    have hmem : inv ∈ st.invitations := List.mem_of_find?_eq_some hfind
    have heq : (fun i : Remote.RInvitation =>
        if i.id = inv.id then { i with status := Remote.InvitationStatus.expired }
        else i) inv =
        { inv with status := Remote.InvitationStatus.expired } := by
      simp
    exact heq ▸ List.mem_map_of_mem _ hmem

/-- Concrete remote store for the C4 witness: one pending invitation with
token `"tok"` that expired at time `0`, accepted at time `5`. -/
def c4RemoteState : Remote.State :=
  { members := [],
    invitations := [{ id := 1, workspaceId := 1, email := "a@example.com",
                      role := .member, status := .pending, token := "tok",
                      expiresAt := 0 }] }

theorem c4_expired_invitation_transition_persisted_witness :
    Remote.accept_invitation c4RemoteState 5 "tok" 7 =
      (.error (.invitationError "Invitation has expired"),
       Remote.setInvitationStatus c4RemoteState 1 .expired) ∧
    (Remote.accept_invitation c4RemoteState 5 "tok" 7).2.members =
      c4RemoteState.members :=
  by
  have h := c4_expired_invitation_transition_persisted c4RemoteState 5 "tok" 7
    { id := 1, workspaceId := 1, email := "a@example.com", role := .member,
      status := .pending, token := "tok", expiresAt := 0 }
    (by decide) (by decide)
  exact ⟨h.1, h.2.1⟩

/-- Claim C3: accepting the same invitation token twice succeeds exactly
once.  If an `accept_invitation` call for `tok` succeeds (yielding state
`st1`, in which the invitation's status is `accepted`), then any subsequent
`accept_invitation` with that token — at any time and for any principal —
fails with the non-pending-status error and leaves the store unchanged.
Tokens are unique per row (the schema's uniqueness constraint on `token`). -/
theorem c3_accept_invitation_idempotent (st st1 : Remote.State)
    (now now2 : Int) (tok : String) (u u2 : Nat) (out : Nat × Remote.MemberRole)
    (huniq : Remote.tokensUnique st)
    (hacc : Remote.accept_invitation st now tok u = (.ok out, st1)) :
    Remote.accept_invitation st1 now2 tok u2 =
      (.error (.invitationError "Invitation not found or already used"), st1) := by
  unfold Remote.accept_invitation at hacc
  cases hfind : st.invitations.find? (fun i =>
      decide (i.token = tok ∧ i.status = Remote.InvitationStatus.pending)) with
  | none =>
    rw [hfind] at hacc
    cases hacc
  | some inv =>
    have hinv_mem : inv ∈ st.invitations := List.mem_of_find?_eq_some hfind
    have hinv_pred : inv.token = tok ∧ inv.status = Remote.InvitationStatus.pending := by
      have := List.find?_some hfind
      simpa using this
    simp only [hfind] at hacc
    by_cases hexp : inv.expiresAt < now
    · rw [if_pos hexp] at hacc
      cases hacc
    · rw [if_neg hexp] at hacc
      by_cases hmem : Remote.is_member st inv.workspaceId u = true
      · rw [if_pos hmem] at hacc
        cases hacc
      · rw [if_neg hmem] at hacc
        rw [Prod.mk.injEq] at hacc
        obtain ⟨_, hst1⟩ := hacc
        have hst1inv : st1.invitations = st.invitations.map (fun i =>
            if i.id = inv.id then { i with status := Remote.InvitationStatus.accepted }
            else i) := by
          rw [← hst1]
          show (Remote.add_member st inv.workspaceId u inv.role).invitations.map _ = _
          rw [add_member_invitations]
        have hnone : st1.invitations.find? (fun i =>
            decide (i.token = tok ∧ i.status = Remote.InvitationStatus.pending)) = none := by
          rw [hst1inv, List.find?_eq_none]
          intro x hx
          rw [List.mem_map] at hx
          obtain ⟨y, hy, rfl⟩ := hx
          by_cases hid : y.id = inv.id
          · rw [if_pos hid]
            simp
          · rw [if_neg hid]
            simp only [decide_eq_true_eq, not_and]
            intro htok _
            exact absurd (huniq y hy inv hinv_mem (htok.trans hinv_pred.1.symm)) hid
        unfold Remote.accept_invitation
        rw [hnone]

/-- Concrete remote store for the C3 witness: one pending invitation with
token `"tok"` expiring at time `100`, accepted at time `0`. -/
def c3RemoteState : Remote.State :=
  { members := [],
    invitations := [{ id := 1, workspaceId := 1, email := "a@example.com",
                      role := .member, status := .pending, token := "tok",
                      expiresAt := 100 }] }

theorem c3_accept_invitation_idempotent_witness :
    Remote.accept_invitation
        (Remote.accept_invitation c3RemoteState 0 "tok" 7).2 0 "tok" 8 =
      (.error (.invitationError "Invitation not found or already used"),
       (Remote.accept_invitation c3RemoteState 0 "tok" 7).2) :=
  c3_accept_invitation_idempotent c3RemoteState
    (Remote.accept_invitation c3RemoteState 0 "tok" 7).2 0 0 "tok" 7 8
    (1, .member) (by decide) rfl

end VibeKanban
